import Mathlib

/-!
Shallow embedding of `lstchain/calib/camera/calib.py` (module `lstchain.calib.camera.calib`).

Arrays are modelled as (nested) lists of rationals: the claims under study are
structural (shapes, which channel a value comes from, what is written where),
not about floating-point rounding, so `ℚ` is an exact stand-in for the numpy
float values.

External collaborators (the ctapipe `ThresholdGainSelector` created with
`select_by_sample=True`, and the `LocalPeakWindowSum` integrator) are out of
scope of the repository: they are passed in as function parameters
(`select_gains`, `integrator`), so every theorem quantifies over their
behaviour.  `select_gains cam_id waveform` stands for the boolean per-sample
`gain_mask` that `gain_selector.select_gains(cam_id, waveform)` returns as its
second component (the first component, the rebound local `waveform`, is unused
by the source afterwards and is not modelled).

Mutable state is threaded explicitly: the module-level dict
`gain_selector.thresholds` becomes a `ThresholdTable` value, and the arrays a
caller passes to `gain_selection` are part of a `GSState` record whose
post-call value the embedded function returns alongside the Python return
value, so that frame effects (what was and was not mutated) are expressible.
Python exceptions (the `assert` on line 69, numpy index errors) become an
`Except CalibError` result; the post-call state is returned on every path,
matching the fact that in Python a raised exception does not undo earlier
mutations.
-/

namespace LstCalib

/-- Fatal Python-level failures of the calibration code: the `assert` on the
number of gain channels, a numpy indexing failure (mismatched boolean mask or
missing row), and reading an array of unexpected rank from the event. -/
inductive CalibError where
  | assertionError : CalibError
  | indexError : CalibError
  | typeError : CalibError
deriving DecidableEq

/-- The module-level dict `gain_selector.thresholds`, mapping camera id to the
saturation threshold, in insertion order. -/
def ThresholdTable : Type := List (String × ℚ)

instance : DecidableEq ThresholdTable := by
  unfold ThresholdTable
  infer_instance

/-- Python dict assignment `d[k] = v`: replace the value at the first (unique)
occurrence of the key, else append the new binding. -/
def dictAssign : ThresholdTable → String → ℚ → ThresholdTable
  | [], k, v => [(k, v)]
  | (k1, v1) :: rest, k, v =>
      if k1 = k then (k, v) :: rest else (k1, v1) :: dictAssign rest k v

/-- Python dict lookup `d[k]` as an `Option`. -/
def dictLookup : ThresholdTable → String → Option ℚ
  | [], _ => none
  | (k1, v1) :: rest, k => if k1 = k then some v1 else dictLookup rest k

/-- numpy `row.max()` on one boolean row: the reduction used by
`gain_mask.max(axis=1)` on each pixel's samples. -/
def npBoolMax (row : List Bool) : Bool := row.foldr max false

/-- numpy masked assignment on equal-length arrays:
`out = base.copy(); out[mask] = repl[mask]` yields, per index, the `repl`
value where the mask is true and the `base` value elsewhere.  The fallback
case is unreachable under the equal-length guard in `gain_selection` (numpy
raises on a mismatched boolean index). -/
def maskedAssign : List ℚ → List ℚ → List Bool → List ℚ
  | b :: bs, r :: rs, m :: ms => (if m then r else b) :: maskedAssign bs rs ms
  | bs, _, _ => bs

/-- The state `gain_selection` can read or mutate besides its return value:
the module-level threshold dict, and the contents of the caller's `charges`
and `pulse_time` arrays (passed by reference in Python). -/
structure GSState where
  thresholds : ThresholdTable
  charges : List (List ℚ)
  pulse_time : List (List ℚ)
deriving DecidableEq

/-- Embedding of `gain_selection(waveform, charges, pulse_time, cam_id,
threshold)` (calib.py lines 55-81).  Steps, in source order:
`assert charges.shape[0] == 2`;
`gain_selector.thresholds[cam_id] = threshold`;
`gain_mask = select_gains(cam_id, waveform)` (second component, external);
`signal_mask = gain_mask.max(axis=1)`;
`combined_image = charges[0].copy(); combined_image[signal_mask] = charges[1][signal_mask].copy()`;
likewise for `pulse_time`; return the combined pair.
The result is the post-call `GSState` (unchanged `charges`/`pulse_time`
because only fresh copies are written to) together with the Python return
value or the raised exception.  A `pulse_time` with fewer than two rows, or
a `signal_mask` whose length differs from the pixel count of the rows, is a
numpy `indexError`, raised after the threshold dict was already written. -/
def gain_selection
    (select_gains : String → List (List (List ℚ)) → List (List Bool))
    (st : GSState) (waveform : List (List (List ℚ)))
    (cam_id : String) (threshold : ℚ) :
    GSState × Except CalibError (List ℚ × List ℚ) :=
  match st.charges, st.pulse_time with
  | [c0, c1], t0 :: t1 :: _ =>
      let st1 : GSState :=
        ⟨dictAssign st.thresholds cam_id threshold, st.charges, st.pulse_time⟩
      let gain_mask := select_gains cam_id waveform
      let signal_mask := gain_mask.map npBoolMax
      if signal_mask.length = c0.length ∧ signal_mask.length = c1.length ∧
          signal_mask.length = t0.length ∧ signal_mask.length = t1.length then
        (st1, Except.ok
          (maskedAssign c0 c1 signal_mask, maskedAssign t0 t1 signal_mask))
      else
        (st1, Except.error CalibError.indexError)
  | [_, _], _ =>
      (⟨dictAssign st.thresholds cam_id threshold, st.charges, st.pulse_time⟩,
        Except.error CalibError.indexError)
  | _, _ => (st, Except.error CalibError.assertionError)

/-- Pedestal subtraction (calib.py line 41):
`pedcorrectedsamples = data - np.atleast_3d(ped) / nsamples`.
`ped` has shape [gain, pixel]; `atleast_3d` broadcasts the per-pixel value
over the sample axis, so every sample of a pixel has `ped[g][p] / nsamples`
subtracted. -/
def pedSubtract (data : List (List (List ℚ))) (ped : List (List ℚ))
    (nsamples : ℕ) : List (List (List ℚ)) :=
  List.zipWith
    (fun chan pedChan =>
      List.zipWith
        (fun samples p => samples.map (fun x => x - p / (nsamples : ℚ)))
        chan pedChan)
    data ped

/-- Element-wise product of two [gain, pixel] arrays (calib.py line 49,
`signals *= dc2pe`). -/
def mul2 (a b : List (List ℚ)) : List (List ℚ) :=
  List.zipWith (fun ra rb => List.zipWith (fun x y => x * y) ra rb) a b

/-- numpy `data.shape[2]` for the regular 3-d waveform tensor (calib.py line
37, `nsamples = data.shape[2]`). -/
def shape2 (data : List (List (List ℚ))) : ℕ :=
  ((data.headD []).headD []).length

/-- The `event.r0.tel[id]` container: the raw waveform tensor
[gain, pixel, sample]. -/
structure TelR0 where
  waveform : List (List (List ℚ))

/-- The `event.mc.tel[id]` container: per-gain per-pixel pedestal sums and
dc-to-photoelectron conversion factors. -/
structure TelMC where
  pedestal : List (List ℚ)
  dc_to_pe : List (List ℚ)

/-- A numpy array slot whose rank changes over the event's lifetime: the dl1
`image`/`pulse_time` fields hold two-channel [gain, pixel] arrays after
`lst_calibration` and pixel-only rank-1 arrays after `combine_channels`. -/
inductive PyArray where
  | a1 : List ℚ → PyArray
  | a2 : List (List ℚ) → PyArray
deriving DecidableEq

/-- The `event.dl1.tel[id]` container: calibrated image and pulse-time. -/
structure TelDL1 where
  image : PyArray
  pulse_time : PyArray
deriving DecidableEq

/-- The camera description reached via `event.inst.subarray.tel[id].camera`. -/
structure CameraDesc where
  cam_id : String

/-- The `event.inst.subarray.tel[id]` container. -/
structure TelInst where
  camera : CameraDesc

/-- The ctapipe event container, restricted to the fields this module reads
or writes; each field is a telescope-id-indexed family of containers. -/
structure Event where
  r0 : ℕ → TelR0
  mc : ℕ → TelMC
  dl1 : ℕ → TelDL1
  inst : ℕ → TelInst

/-- Embedding of `lst_calibration(event, telescope_id)` (calib.py lines
19-52), with the external `LocalPeakWindowSum` integrator as a parameter
returning the (integration, pulse_time) pair of [gain, pixel] arrays.
`integration.astype(float)` is the identity here since values are already
rationals.  The two assignments to `event.dl1.tel[telescope_id]` replace the
`image` and `pulse_time` fields of that telescope's dl1 container. -/
def lst_calibration
    (integrator : List (List (List ℚ)) → List (List ℚ) × List (List ℚ))
    (event : Event) (telescope_id : ℕ) : Event :=
  let data := (event.r0 telescope_id).waveform
  let ped := (event.mc telescope_id).pedestal
  let nsamples := shape2 data
  let pedcorrectedsamples := pedSubtract data ped nsamples
  let intres := integrator pedcorrectedsamples
  let integration := intres.1
  let pulse_time := intres.2
  let signals := integration
  let dc2pe := (event.mc telescope_id).dc_to_pe
  let signals1 := mul2 signals dc2pe
  ⟨event.r0, event.mc,
    fun t => if t = telescope_id then ⟨PyArray.a2 signals1, PyArray.a2 pulse_time⟩
             else event.dl1 t,
    event.inst⟩

/-- Embedding of `combine_channels(event, tel_id, threshold)` (calib.py lines
85-107).  Reads `cam_id`, the raw waveform and the two-channel dl1 arrays,
delegates to `gain_selection`, and on success overwrites the dl1 `image` and
`pulse_time` of this telescope with the combined pixel-only arrays.  The
function returns no Python value, so the result here is just the post-call
state: threshold table, event, and the `Unit`-or-exception outcome.  On an
exception inside `gain_selection` the event is untouched (the dl1 writes on
lines 106-107 are never reached) while the threshold table keeps whatever
`gain_selection` already wrote.  Reading a dl1 slot that does not hold
two-channel rank-2 arrays is modelled as a `typeError`; it only arises on
inputs outside the documented calling discipline. -/
def combine_channels
    (select_gains : String → List (List (List ℚ)) → List (List Bool))
    (thresholds : ThresholdTable) (event : Event) (tel_id : ℕ)
    (threshold : ℚ) :
    ThresholdTable × Event × Except CalibError Unit :=
  let cam_id := (event.inst tel_id).camera.cam_id
  let waveform := (event.r0 tel_id).waveform
  match (event.dl1 tel_id).image, (event.dl1 tel_id).pulse_time with
  | PyArray.a2 charges, PyArray.a2 pulse_time =>
      match gain_selection select_gains ⟨thresholds, charges, pulse_time⟩
          waveform cam_id threshold with
      | (st1, Except.ok res) =>
          (st1.thresholds,
            ⟨event.r0, event.mc,
              fun t => if t = tel_id then ⟨PyArray.a1 res.1, PyArray.a1 res.2⟩
                       else event.dl1 t,
              event.inst⟩,
            Except.ok ())
      | (st1, Except.error e) => (st1.thresholds, event, Except.error e)
  | _, _ => (thresholds, event, Except.error CalibError.typeError)

/-- A one-telescope, one-pixel, one-sample event fixture used to evaluate
`lst_calibration` on concrete data: zero waveform, zero pedestal, dc_to_pe
factor 3, empty dl1, camera id LSTCam at every telescope id. -/
def evC5 : Event :=
  ⟨fun _ => ⟨[[[0]]]⟩, fun _ => ⟨[[0]], [[3]]⟩,
    fun _ => ⟨PyArray.a1 [], PyArray.a1 []⟩, fun _ => ⟨⟨"LSTCam"⟩⟩⟩

/-- A one-pixel event fixture whose dl1 slots already hold two-channel charge
[[10], [5]] and pulse-time [[2], [3]] arrays, used to evaluate
`combine_channels` on concrete data. -/
def evC6 : Event :=
  ⟨fun _ => ⟨[[[0]]]⟩, fun _ => ⟨[[0]], [[1]]⟩,
    fun _ => ⟨PyArray.a2 [[10], [5]], PyArray.a2 [[2], [3]]⟩,
    fun _ => ⟨⟨"LSTCam"⟩⟩⟩

/-! Helper lemmas about the embedded primitives. -/

/-- Indexing a `zipWith` where both inputs are defined. -/
theorem getElem?_zipWith_some {α β γ : Type} (f : α → β → γ) :
    ∀ (l1 : List α) (l2 : List β) (i : ℕ) (x : α) (y : β),
      l1[i]? = some x → l2[i]? = some y →
      (List.zipWith f l1 l2)[i]? = some (f x y) := by
  intro l1
  induction l1 with
  | nil => intro l2 i x y hx _; simp at hx
  | cons a as ih =>
      intro l2 i x y hx hy
      cases l2 with
      | nil => simp at hy
      | cons b bs =>
          cases i with
          | zero =>
              simp only [List.getElem?_cons_zero, Option.some.injEq] at hx hy
              simp [List.zipWith_cons_cons, hx, hy]
          | succ n =>
              simp only [List.getElem?_cons_succ] at hx hy
              simpa using ih bs n x y hx hy

/-- `maskedAssign` keeps the length of its base array. -/
theorem maskedAssign_length :
    ∀ (bs rs : List ℚ) (ms : List Bool),
      (maskedAssign bs rs ms).length = bs.length := by
  intro bs
  induction bs with
  | nil => intro rs ms; cases rs <;> cases ms <;> rfl
  | cons b bs ih =>
      intro rs ms
      cases rs with
      | nil => rfl
      | cons r rs =>
          cases ms with
          | nil => rfl
          | cons m ms => simp [maskedAssign, ih]

/-- Elementwise description of `maskedAssign` at defined indices. -/
theorem maskedAssign_getElem? :
    ∀ (bs rs : List ℚ) (ms : List Bool) (i : ℕ) (b r : ℚ) (m : Bool),
      bs[i]? = some b → rs[i]? = some r → ms[i]? = some m →
      (maskedAssign bs rs ms)[i]? = some (if m then r else b) := by
  intro bs
  induction bs with
  | nil => intro rs ms i b r m hb _ _; simp at hb
  | cons b0 bs ih =>
      intro rs ms i b r m hb hr hm
      cases rs with
      | nil => simp at hr
      | cons r0 rs =>
          cases ms with
          | nil => simp at hm
          | cons m0 ms =>
              cases i with
              | zero =>
                  simp only [List.getElem?_cons_zero, Option.some.injEq] at hb hr hm
                  simp [maskedAssign, hb, hr, hm]
              | succ n =>
                  simp only [List.getElem?_cons_succ] at hb hr hm
                  simpa [maskedAssign] using ih rs ms n b r m hb hr hm

/-- The numpy boolean `max` reduction is exactly the logical OR (`any`) of the
row. -/
theorem npBoolMax_eq_any (row : List Bool) :
    npBoolMax row = row.any (fun b => b) := by
  induction row with
  | nil => rfl
  | cons a l ih =>
      have h0 : npBoolMax (a :: l) = max a (npBoolMax l) := rfl
      rw [h0, ih, Bool.max_eq_or]
      simp

/-- The per-pixel mask is true iff some sample of the row is true. -/
theorem npBoolMax_true_iff (row : List Bool) :
    npBoolMax row = true ↔ ∃ i : ℕ, row[i]? = some true := by
  rw [npBoolMax_eq_any, List.any_eq_true]
  constructor
  · rintro ⟨x, hx, hxt⟩
    obtain ⟨i, hi⟩ := List.mem_iff_getElem?.mp hx
    refine ⟨i, ?_⟩
    rw [hi]
    exact congrArg some hxt
  · rintro ⟨i, hi⟩
    exact ⟨true, List.mem_iff_getElem?.mpr ⟨i, hi⟩, rfl⟩

/-- Looking up the key just assigned returns the new value: dict assignment
overwrites. -/
theorem dictLookup_dictAssign_same :
    ∀ (tbl : ThresholdTable) (k : String) (v : ℚ),
      dictLookup (dictAssign tbl k v) k = some v := by
  intro tbl
  induction tbl with
  | nil => intro k v; simp [dictAssign, dictLookup]
  | cons p rest ih =>
      intro k v
      obtain ⟨k1, v1⟩ := p
      by_cases h : k1 = k
      · simp [dictAssign, dictLookup, h]
      · simp [dictAssign, dictLookup, h, ih]

/-- Dict assignment leaves every other key's binding unchanged. -/
theorem dictLookup_dictAssign_other :
    ∀ (tbl : ThresholdTable) (k c : String) (v : ℚ),
      c ≠ k → dictLookup (dictAssign tbl k v) c = dictLookup tbl c := by
  intro tbl
  induction tbl with
  | nil =>
      intro k c v hne
      have hkc : ¬(k = c) := fun h => hne h.symm
      simp [dictAssign, dictLookup, hkc]
  | cons p rest ih =>
      intro k c v hne
      obtain ⟨k1, v1⟩ := p
      have hkc : ¬(k = c) := fun h => hne h.symm
      by_cases h : k1 = k
      · subst h
        simp [dictAssign, dictLookup, hkc]
      · simp [dictAssign, dictLookup, h, ih k c v hne]

/-- Normal-path behaviour of `gain_selection`: with a two-channel charge
array, at least two pulse-time rows, and a gain mask with one row per pixel,
the call writes the threshold and returns the two masked combinations. -/
theorem gain_selection_ok_eq
    (select_gains : String → List (List (List ℚ)) → List (List Bool))
    (st : GSState) (waveform : List (List (List ℚ)))
    (cam_id : String) (threshold : ℚ)
    (c0 c1 t0 t1 : List ℚ) (trest : List (List ℚ))
    (hc : st.charges = [c0, c1]) (ht : st.pulse_time = t0 :: t1 :: trest)
    (hg : (select_gains cam_id waveform).length = c0.length)
    (h1 : c1.length = c0.length) (h2 : t0.length = c0.length)
    (h3 : t1.length = c0.length) :
    gain_selection select_gains st waveform cam_id threshold =
      (⟨dictAssign st.thresholds cam_id threshold, st.charges, st.pulse_time⟩,
        Except.ok
          (maskedAssign c0 c1 ((select_gains cam_id waveform).map npBoolMax),
           maskedAssign t0 t1 ((select_gains cam_id waveform).map npBoolMax))) := by
  obtain ⟨tbl, ch, pt⟩ := st
  simp only at hc ht
  subst hc
  subst ht
  simp [gain_selection, List.length_map, hg, h1, h2, h3]

/-! Claim theorems. -/

/-- C1: for every two-channel charge array `[c0, c1]` (shape [2, P]) with
matching pulse-time rows, any waveform/camera/threshold whose gain mask has
one row per pixel, `gain_selection` returns a combined charge array and
combined pulse-time array of pixel-only length P, and every combined pixel
value equals either the channel-0 or the channel-1 value at that pixel,
never a blend. -/
theorem C1_combined_shape_and_no_blend
    (select_gains : String → List (List (List ℚ)) → List (List Bool))
    (st : GSState) (waveform : List (List (List ℚ)))
    (cam_id : String) (threshold : ℚ)
    (c0 c1 t0 t1 : List ℚ) (trest : List (List ℚ))
    (hc : st.charges = [c0, c1]) (ht : st.pulse_time = t0 :: t1 :: trest)
    (hg : (select_gains cam_id waveform).length = c0.length)
    (h1 : c1.length = c0.length) (h2 : t0.length = c0.length)
    (h3 : t1.length = c0.length) :
    ∃ ci ct,
      (gain_selection select_gains st waveform cam_id threshold).2 =
        Except.ok (ci, ct) ∧
      ci.length = c0.length ∧ ct.length = c0.length ∧
      ∀ p : ℕ, p < c0.length →
        ∃ x, ci[p]? = some x ∧ (c0[p]? = some x ∨ c1[p]? = some x) := by
  have heq := gain_selection_ok_eq select_gains st waveform cam_id threshold
    c0 c1 t0 t1 trest hc ht hg h1 h2 h3
  refine ⟨maskedAssign c0 c1 ((select_gains cam_id waveform).map npBoolMax),
    maskedAssign t0 t1 ((select_gains cam_id waveform).map npBoolMax),
    by rw [heq], maskedAssign_length _ _ _,
    (maskedAssign_length _ _ _).trans h2, ?_⟩
  intro p hp
  have hpm : p < ((select_gains cam_id waveform).map npBoolMax).length := by
    rw [List.length_map, hg]; exact hp
  obtain ⟨b, hb⟩ : ∃ b, c0[p]? = some b := ⟨_, List.getElem?_eq_getElem hp⟩
  obtain ⟨r, hr⟩ : ∃ r, c1[p]? = some r :=
    ⟨_, List.getElem?_eq_getElem (by rw [h1]; exact hp)⟩
  obtain ⟨m, hm⟩ :
      ∃ m, ((select_gains cam_id waveform).map npBoolMax)[p]? = some m :=
    ⟨_, List.getElem?_eq_getElem hpm⟩
  have hma := maskedAssign_getElem? c0 c1 _ p b r m hb hr hm
  cases m with
  | false => exact ⟨b, by simpa using hma, Or.inl hb⟩
  | true => exact ⟨r, by simpa using hma, Or.inr hr⟩

/-- C2: a pixel's combined value is taken from the low-gain channel (index 1)
iff the per-pixel signal mask is true there; the signal mask bit is true iff
at least one sample of the pixel's gain-mask row triggered; and the
sample-axis reduction `max` is the logical OR (`any`) of the row. -/
theorem C2_low_gain_iff_signal_mask
    (select_gains : String → List (List (List ℚ)) → List (List Bool))
    (st : GSState) (waveform : List (List (List ℚ)))
    (cam_id : String) (threshold : ℚ)
    (c0 c1 t0 t1 : List ℚ) (trest : List (List ℚ))
    (hc : st.charges = [c0, c1]) (ht : st.pulse_time = t0 :: t1 :: trest)
    (hg : (select_gains cam_id waveform).length = c0.length)
    (h1 : c1.length = c0.length) (h2 : t0.length = c0.length)
    (h3 : t1.length = c0.length) :
    ∃ ci ct,
      (gain_selection select_gains st waveform cam_id threshold).2 =
        Except.ok (ci, ct) ∧
      ∀ (p : ℕ) (row : List Bool),
        (select_gains cam_id waveform)[p]? = some row →
        (ci[p]? = if npBoolMax row then c1[p]? else c0[p]?) ∧
        (npBoolMax row = true ↔ ∃ s : ℕ, row[s]? = some true) ∧
        npBoolMax row = row.any (fun b => b) := by
  have heq := gain_selection_ok_eq select_gains st waveform cam_id threshold
    c0 c1 t0 t1 trest hc ht hg h1 h2 h3
  refine ⟨maskedAssign c0 c1 ((select_gains cam_id waveform).map npBoolMax),
    maskedAssign t0 t1 ((select_gains cam_id waveform).map npBoolMax),
    by rw [heq], ?_⟩
  intro p row hrow
  have hp : p < c0.length := by
    have hlt := (List.getElem?_eq_some.mp hrow).1
    rw [hg] at hlt
    exact hlt
  have hm : ((select_gains cam_id waveform).map npBoolMax)[p]? =
      some (npBoolMax row) := by
    rw [List.getElem?_map, hrow]
    rfl
  obtain ⟨b, hb⟩ : ∃ b, c0[p]? = some b := ⟨_, List.getElem?_eq_getElem hp⟩
  obtain ⟨r, hr⟩ : ∃ r, c1[p]? = some r :=
    ⟨_, List.getElem?_eq_getElem (by rw [h1]; exact hp)⟩
  have hma := maskedAssign_getElem? c0 c1 _ p b r _ hb hr hm
  refine ⟨?_, npBoolMax_true_iff row, npBoolMax_eq_any row⟩
  cases hnb : npBoolMax row with
  | false =>
      rw [hnb] at hma
      simp at hma ⊢
      rw [hma, hb]
  | true =>
      rw [hnb] at hma
      simp at hma ⊢
      rw [hma, hr]

/-- C9: the combined charge and combined pulse time of a pixel are taken from
the same gain channel: the single per-pixel mask bit decides both
substitutions at once. -/
theorem C9_charge_and_time_same_channel
    (select_gains : String → List (List (List ℚ)) → List (List Bool))
    (st : GSState) (waveform : List (List (List ℚ)))
    (cam_id : String) (threshold : ℚ)
    (c0 c1 t0 t1 : List ℚ) (trest : List (List ℚ))
    (hc : st.charges = [c0, c1]) (ht : st.pulse_time = t0 :: t1 :: trest)
    (hg : (select_gains cam_id waveform).length = c0.length)
    (h1 : c1.length = c0.length) (h2 : t0.length = c0.length)
    (h3 : t1.length = c0.length) :
    ∃ ci ct,
      (gain_selection select_gains st waveform cam_id threshold).2 =
        Except.ok (ci, ct) ∧
      ∀ (p : ℕ) (row : List Bool),
        (select_gains cam_id waveform)[p]? = some row →
        ci[p]? = (if npBoolMax row then c1 else c0)[p]? ∧
        ct[p]? = (if npBoolMax row then t1 else t0)[p]? := by
  have heq := gain_selection_ok_eq select_gains st waveform cam_id threshold
    c0 c1 t0 t1 trest hc ht hg h1 h2 h3
  refine ⟨maskedAssign c0 c1 ((select_gains cam_id waveform).map npBoolMax),
    maskedAssign t0 t1 ((select_gains cam_id waveform).map npBoolMax),
    by rw [heq], ?_⟩
  intro p row hrow
  have hp : p < c0.length := by
    have hlt := (List.getElem?_eq_some.mp hrow).1
    rw [hg] at hlt
    exact hlt
  have hm : ((select_gains cam_id waveform).map npBoolMax)[p]? =
      some (npBoolMax row) := by
    rw [List.getElem?_map, hrow]
    rfl
  obtain ⟨b, hb⟩ : ∃ b, c0[p]? = some b := ⟨_, List.getElem?_eq_getElem hp⟩
  obtain ⟨r, hr⟩ : ∃ r, c1[p]? = some r :=
    ⟨_, List.getElem?_eq_getElem (by rw [h1]; exact hp)⟩
  obtain ⟨u, hu⟩ : ∃ u, t0[p]? = some u :=
    ⟨_, List.getElem?_eq_getElem (by rw [h2]; exact hp)⟩
  obtain ⟨w, hw⟩ : ∃ w, t1[p]? = some w :=
    ⟨_, List.getElem?_eq_getElem (by rw [h3]; exact hp)⟩
  have hma := maskedAssign_getElem? c0 c1 _ p b r _ hb hr hm
  have hmt := maskedAssign_getElem? t0 t1 _ p u w _ hu hw hm
  cases hnb : npBoolMax row with
  | false =>
      rw [hnb] at hma hmt
      simp at hma hmt ⊢
      exact ⟨by rw [hma, hb], by rw [hmt, hu]⟩
  | true =>
      rw [hnb] at hma hmt
      simp at hma hmt ⊢
      exact ⟨by rw [hma, hr], by rw [hmt, hw]⟩

/-- On any call whose charge array has exactly two rows, the post-call state
is the input state with the threshold entry overwritten; the caller's arrays
are passed through, whatever the outcome of the index checks. -/
theorem gain_selection_fst_of_two
    (select_gains : String → List (List (List ℚ)) → List (List Bool))
    (st : GSState) (waveform : List (List (List ℚ)))
    (cam_id : String) (threshold : ℚ)
    (h2 : st.charges.length = 2) :
    (gain_selection select_gains st waveform cam_id threshold).1 =
      ⟨dictAssign st.thresholds cam_id threshold, st.charges,
        st.pulse_time⟩ := by
  obtain ⟨tbl, ch, pt⟩ := st
  obtain ⟨a, b, rfl⟩ := List.length_eq_two.mp h2
  rcases pt with _ | ⟨x, _ | ⟨y, rest2⟩⟩
  · simp [gain_selection]
  · simp [gain_selection]
  · simp only [gain_selection]
    split <;> rfl

/-- C3: `gain_selection` on a charges array whose leading dimension is not 2
fails with the assertion error and the state as passed (no threshold
recorded, no array touched); with leading dimension 2 the assertion passes,
so the outcome is never the assertion error. -/
theorem C3_two_channel_assertion
    (select_gains : String → List (List (List ℚ)) → List (List Bool))
    (st : GSState) (waveform : List (List (List ℚ)))
    (cam_id : String) (threshold : ℚ) :
    (st.charges.length ≠ 2 →
      gain_selection select_gains st waveform cam_id threshold =
        (st, Except.error CalibError.assertionError)) ∧
    (st.charges.length = 2 →
      (gain_selection select_gains st waveform cam_id threshold).2 ≠
        Except.error CalibError.assertionError) := by
  obtain ⟨tbl, ch, pt⟩ := st
  constructor
  · intro hne
    rcases ch with _ | ⟨a, _ | ⟨b, _ | ⟨c, rest⟩⟩⟩
    · simp [gain_selection]
    · simp [gain_selection]
    · exact absurd rfl hne
    · simp [gain_selection]
  · intro h2
    rcases ch with _ | ⟨a, _ | ⟨b, _ | ⟨c, rest⟩⟩⟩
    · simp at h2
    · simp at h2
    · rcases pt with _ | ⟨x, _ | ⟨y, rest2⟩⟩
      · simp [gain_selection]
      · simp [gain_selection]
      · simp only [gain_selection]
        split <;> simp
    · simp only [List.length_cons] at h2
      omega

/-- C10: `gain_selection` leaves the caller's `charges` and `pulse_time`
arrays exactly as they were on every path (the source builds the outputs
from copies of the channel-0 rows before the masked in-place assignment). -/
theorem C10_caller_arrays_unchanged
    (select_gains : String → List (List (List ℚ)) → List (List Bool))
    (st : GSState) (waveform : List (List (List ℚ)))
    (cam_id : String) (threshold : ℚ) :
    ((gain_selection select_gains st waveform cam_id threshold).1).charges =
      st.charges ∧
    ((gain_selection select_gains st waveform cam_id threshold).1).pulse_time =
      st.pulse_time := by
  obtain ⟨tbl, ch, pt⟩ := st
  rcases ch with _ | ⟨a, _ | ⟨b, _ | ⟨c, rest⟩⟩⟩
  · simp [gain_selection]
  · simp [gain_selection]
  · rcases pt with _ | ⟨x, _ | ⟨y, rest2⟩⟩
    · simp [gain_selection]
    · simp [gain_selection]
    · simp only [gain_selection]
      split <;> simp
  · simp [gain_selection]

/-- C7 counterexample: a call that fails the two-channel assertion (empty
charges array) does not record the passed threshold 4000: the shared table
still maps this camera to its old value 7 after the call, so the recording
does not happen on every call. -/
theorem C7_counterexample_assert_path :
    ((gain_selection (fun _ _ => [[true]])
        ⟨[(("LSTCam" : String), (7 : ℚ))], [], []⟩ [] ("LSTCam") 4000).1).thresholds =
      [(("LSTCam" : String), (7 : ℚ))] ∧
    dictLookup ((gain_selection (fun _ _ => [[true]])
        ⟨[(("LSTCam" : String), (7 : ℚ))], [], []⟩ [] ("LSTCam") 4000).1).thresholds
      ("LSTCam") ≠ some 4000 :=
  ⟨rfl, by decide⟩

/-- C7 (amended): on every call that passes the two-channel assertion — even
one that later fails with an index error — `gain_selection` stores the given
threshold for the given camera id in the shared table, overwriting (not
accumulating with) any previously stored value, leaves every other camera's
entry unchanged, and mutates no other shared state: the caller's arrays come
back as passed. -/
theorem C7_threshold_overwrite
    (select_gains : String → List (List (List ℚ)) → List (List Bool))
    (st : GSState) (waveform : List (List (List ℚ)))
    (cam_id : String) (threshold : ℚ)
    (h2 : st.charges.length = 2) :
    ((gain_selection select_gains st waveform cam_id threshold).1).thresholds =
      dictAssign st.thresholds cam_id threshold ∧
    dictLookup
      ((gain_selection select_gains st waveform cam_id threshold).1).thresholds
      cam_id = some threshold ∧
    (∀ c : String, c ≠ cam_id →
      dictLookup
        ((gain_selection select_gains st waveform cam_id threshold).1).thresholds
        c = dictLookup st.thresholds c) ∧
    ((gain_selection select_gains st waveform cam_id threshold).1).charges =
      st.charges ∧
    ((gain_selection select_gains st waveform cam_id threshold).1).pulse_time =
      st.pulse_time := by
  have hfst :=
    gain_selection_fst_of_two select_gains st waveform cam_id threshold h2
  rw [hfst]
  exact ⟨rfl, dictLookup_dictAssign_same _ _ _,
    fun c hc => dictLookup_dictAssign_other _ _ _ _ hc, rfl, rfl⟩

/-- C8: with two-channel charges [[10, 10], [5, 5]] and a gain mask whose
per-pixel reduction is the signal mask [true, false], the combined image is
[5, 10]: pixel 0 takes the low-gain value, pixel 1 keeps the high-gain
value. -/
theorem C8_concrete_combination :
    ([[true], [false]] : List (List Bool)).map npBoolMax = [true, false] ∧
    (gain_selection (fun _ _ => [[true], [false]])
        ⟨[], [[10, 10], [5, 5]], [[0, 0], [0, 0]]⟩ [] ("LSTCam") 4000).2 =
      Except.ok ([5, 10], [0, 0]) :=
  ⟨rfl, rfl⟩

/-- C4: the pedestal-corrected waveform of `lst_calibration` equals
raw − ped/N elementwise: at every gain channel g, pixel p and sample s, the
corrected sample is the raw sample minus that pixel's pedestal sum divided
by the sample count, broadcast over the sample axis. -/
theorem C4_pedestal_broadcast
    (data : List (List (List ℚ))) (ped : List (List ℚ)) (N g p s : ℕ)
    (chan : List (List ℚ)) (pedChan : List ℚ) (samples : List ℚ) (pv x : ℚ)
    (hN : 0 < N)
    (hg1 : data[g]? = some chan) (hg2 : ped[g]? = some pedChan)
    (hp1 : chan[p]? = some samples) (hp2 : pedChan[p]? = some pv)
    (hs : samples[s]? = some x) :
    ∃ chan1 samples1,
      (pedSubtract data ped N)[g]? = some chan1 ∧
      chan1[p]? = some samples1 ∧
      samples1[s]? = some (x - pv / (N : ℚ)) := by
  refine ⟨_, _, getElem?_zipWith_some _ data ped g chan pedChan hg1 hg2,
    getElem?_zipWith_some _ chan pedChan p samples pv hp1 hp2, ?_⟩
  rw [List.getElem?_map, hs]
  rfl

/-- C5: `lst_calibration` scales the extractor's charge elementwise with the
per-gain per-pixel dc_to_pe factors and writes the scaled charge and the
extractor's pulse-time array into the telescope's dl1 `image` and
`pulse_time` slots. -/
theorem C5_charge_scaling_and_store
    (integrator : List (List (List ℚ)) → List (List ℚ) × List (List ℚ))
    (event : Event) (telescope_id : ℕ)
    (integration pulse_time : List (List ℚ))
    (hint : integrator
        (pedSubtract (event.r0 telescope_id).waveform
          (event.mc telescope_id).pedestal
          (shape2 (event.r0 telescope_id).waveform)) =
        (integration, pulse_time)) :
    ((lst_calibration integrator event telescope_id).dl1 telescope_id).image =
      PyArray.a2 (mul2 integration ((event.mc telescope_id).dc_to_pe)) ∧
    ((lst_calibration integrator event telescope_id).dl1
        telescope_id).pulse_time = PyArray.a2 pulse_time ∧
    ∀ (g p : ℕ) (rowi rowd : List ℚ) (x y : ℚ),
      integration[g]? = some rowi →
      ((event.mc telescope_id).dc_to_pe)[g]? = some rowd →
      rowi[p]? = some x → rowd[p]? = some y →
      ∃ row1,
        (mul2 integration ((event.mc telescope_id).dc_to_pe))[g]? =
          some row1 ∧
        row1[p]? = some (x * y) := by
  refine ⟨?_, ?_, ?_⟩
  · simp [lst_calibration, hint]
  · simp [lst_calibration, hint]
  · intro g p rowi rowd x y hgi hgd hpx hpy
    exact ⟨_, getElem?_zipWith_some _ integration _ g rowi rowd hgi hgd,
      getElem?_zipWith_some _ rowi rowd p x y hpx hpy⟩

/-- C6: `combine_channels` returns no value (`Unit` outcome) and only
replaces this telescope's dl1 `image` and `pulse_time` by the combined
pixel-only arrays: the r0, mc and inst parts of the event and every other
telescope's dl1 container are exactly as before the call. -/
theorem C6_combine_channels_frame
    (select_gains : String → List (List (List ℚ)) → List (List Bool))
    (tbl : ThresholdTable) (event : Event) (tel_id : ℕ) (threshold : ℚ)
    (charges pts : List (List ℚ)) (st1 : GSState) (ci ct : List ℚ)
    (hc : (event.dl1 tel_id).image = PyArray.a2 charges)
    (hp : (event.dl1 tel_id).pulse_time = PyArray.a2 pts)
    (hgs : gain_selection select_gains ⟨tbl, charges, pts⟩
        ((event.r0 tel_id).waveform) ((event.inst tel_id).camera.cam_id)
        threshold = (st1, Except.ok (ci, ct))) :
    (combine_channels select_gains tbl event tel_id threshold).2.2 =
      Except.ok () ∧
    (combine_channels select_gains tbl event tel_id threshold).1 =
      st1.thresholds ∧
    (combine_channels select_gains tbl event tel_id threshold).2.1.r0 =
      event.r0 ∧
    (combine_channels select_gains tbl event tel_id threshold).2.1.mc =
      event.mc ∧
    (combine_channels select_gains tbl event tel_id threshold).2.1.inst =
      event.inst ∧
    (∀ t : ℕ, t ≠ tel_id →
      (combine_channels select_gains tbl event tel_id threshold).2.1.dl1 t =
        event.dl1 t) ∧
    ((combine_channels select_gains tbl event tel_id threshold).2.1.dl1
        tel_id).image = PyArray.a1 ci ∧
    ((combine_channels select_gains tbl event tel_id threshold).2.1.dl1
        tel_id).pulse_time = PyArray.a1 ct := by
  have hcc : combine_channels select_gains tbl event tel_id threshold =
      (st1.thresholds,
        ⟨event.r0, event.mc,
          fun t => if t = tel_id then ⟨PyArray.a1 ci, PyArray.a1 ct⟩
                   else event.dl1 t,
          event.inst⟩,
        Except.ok ()) := by
    simp only [combine_channels, hc, hp, hgs]
  rw [hcc]
  refine ⟨rfl, rfl, rfl, rfl, rfl, ?_, ?_, ?_⟩
  · intro t hts
    simp [hts]
  · simp
  · simp

/-! Witnesses: each hypothesis-bearing claim theorem evaluated at a concrete
input. -/

/-- C1 witness: the hypotheses hold and the conclusion follows at the
two-pixel input of the end-to-end scenario. -/
theorem C1_witness :
    ((⟨[], [[10, 10], [5, 5]], [[1, 2], [3, 4]]⟩ : GSState).charges =
        [[10, 10], [5, 5]]) ∧
    (∃ ci ct,
      (gain_selection (fun _ _ => [[true], [false]])
          ⟨[], [[10, 10], [5, 5]], [[1, 2], [3, 4]]⟩ [] ("LSTCam") 4000).2 =
        Except.ok (ci, ct) ∧
      ci.length = ([10, 10] : List ℚ).length ∧
      ct.length = ([10, 10] : List ℚ).length ∧
      ∀ p : ℕ, p < ([10, 10] : List ℚ).length →
        ∃ x, ci[p]? = some x ∧
          (([10, 10] : List ℚ)[p]? = some x ∨
            ([5, 5] : List ℚ)[p]? = some x)) :=
  ⟨rfl, C1_combined_shape_and_no_blend (fun _ _ => [[true], [false]])
    ⟨[], [[10, 10], [5, 5]], [[1, 2], [3, 4]]⟩ [] ("LSTCam") 4000
    [10, 10] [5, 5] [1, 2] [3, 4] [] rfl rfl rfl rfl rfl rfl⟩

/-- C2 witness: the mask characterisation at the same two-pixel input. -/
theorem C2_witness :
    ((⟨[], [[10, 10], [5, 5]], [[1, 2], [3, 4]]⟩ : GSState).pulse_time =
        [[1, 2], [3, 4]]) ∧
    (∃ ci ct,
      (gain_selection (fun _ _ => [[true], [false]])
          ⟨[], [[10, 10], [5, 5]], [[1, 2], [3, 4]]⟩ [] ("LSTCam") 4000).2 =
        Except.ok (ci, ct) ∧
      ∀ (p : ℕ) (row : List Bool),
        ([[true], [false]] : List (List Bool))[p]? = some row →
        (ci[p]? = if npBoolMax row then ([5, 5] : List ℚ)[p]?
                  else ([10, 10] : List ℚ)[p]?) ∧
        (npBoolMax row = true ↔ ∃ s : ℕ, row[s]? = some true) ∧
        npBoolMax row = row.any (fun b => b)) :=
  ⟨rfl, C2_low_gain_iff_signal_mask (fun _ _ => [[true], [false]])
    ⟨[], [[10, 10], [5, 5]], [[1, 2], [3, 4]]⟩ [] ("LSTCam") 4000
    [10, 10] [5, 5] [1, 2] [3, 4] [] rfl rfl rfl rfl rfl rfl⟩

/-- C9 witness: charge and pulse time follow the same mask bit at the same
two-pixel input. -/
theorem C9_witness :
    (((fun _ _ => [[true], [false]]) ("LSTCam")
        ([] : List (List (List ℚ))) : List (List Bool)).length =
      ([10, 10] : List ℚ).length) ∧
    (∃ ci ct,
      (gain_selection (fun _ _ => [[true], [false]])
          ⟨[], [[10, 10], [5, 5]], [[1, 2], [3, 4]]⟩ [] ("LSTCam") 4000).2 =
        Except.ok (ci, ct) ∧
      ∀ (p : ℕ) (row : List Bool),
        ([[true], [false]] : List (List Bool))[p]? = some row →
        ci[p]? = (if npBoolMax row then ([5, 5] : List ℚ)
                  else ([10, 10] : List ℚ))[p]? ∧
        ct[p]? = (if npBoolMax row then ([3, 4] : List ℚ)
                  else ([1, 2] : List ℚ))[p]?) :=
  ⟨rfl, C9_charge_and_time_same_channel (fun _ _ => [[true], [false]])
    ⟨[], [[10, 10], [5, 5]], [[1, 2], [3, 4]]⟩ [] ("LSTCam") 4000
    [10, 10] [5, 5] [1, 2] [3, 4] [] rfl rfl rfl rfl rfl rfl⟩

/-- C3 witness: the assertion fires with untouched state on an empty charges
array, and a two-channel charges array never yields the assertion error. -/
theorem C3_witness :
    (gain_selection (fun _ _ => [[true]]) ⟨[], [], []⟩ [] ("LSTCam") 4000 =
      (⟨[], [], []⟩, Except.error CalibError.assertionError)) ∧
    ((gain_selection (fun _ _ => [[true]])
        ⟨[], [[10], [5]], [[2], [3]]⟩ [] ("LSTCam") 4000).2 ≠
      Except.error CalibError.assertionError) :=
  ⟨(C3_two_channel_assertion (fun _ _ => [[true]]) ⟨[], [], []⟩ []
      ("LSTCam") 4000).1 (by decide),
   (C3_two_channel_assertion (fun _ _ => [[true]])
      ⟨[], [[10], [5]], [[2], [3]]⟩ [] ("LSTCam") 4000).2 (by decide)⟩

/-- C7 witness: after a passing call, the table maps the camera to the new
threshold and the other camera's entry is untouched. -/
theorem C7_witness :
    (((⟨[(("LSTCam" : String), (7 : ℚ)), (("Other" : String), (1 : ℚ))],
        [[10], [5]], [[2], [3]]⟩ : GSState).charges).length = 2) ∧
    (((gain_selection (fun _ _ => [[true]])
        ⟨[(("LSTCam" : String), (7 : ℚ)), (("Other" : String), (1 : ℚ))],
          [[10], [5]], [[2], [3]]⟩ [] ("LSTCam") 4000).1).thresholds =
      dictAssign
        [(("LSTCam" : String), (7 : ℚ)), (("Other" : String), (1 : ℚ))]
        ("LSTCam") 4000) ∧
    (dictLookup ((gain_selection (fun _ _ => [[true]])
        ⟨[(("LSTCam" : String), (7 : ℚ)), (("Other" : String), (1 : ℚ))],
          [[10], [5]], [[2], [3]]⟩ [] ("LSTCam") 4000).1).thresholds
      ("LSTCam") = some 4000) :=
  ⟨rfl,
   (C7_threshold_overwrite (fun _ _ => [[true]])
      ⟨[(("LSTCam" : String), (7 : ℚ)), (("Other" : String), (1 : ℚ))],
        [[10], [5]], [[2], [3]]⟩ [] ("LSTCam") 4000 rfl).1,
   (C7_threshold_overwrite (fun _ _ => [[true]])
      ⟨[(("LSTCam" : String), (7 : ℚ)), (("Other" : String), (1 : ℚ))],
        [[10], [5]], [[2], [3]]⟩ [] ("LSTCam") 4000 rfl).2.1⟩

/-- C4 witness: one gain channel, one pixel, one sample, pedestal sum 2 over
1 sample: the corrected sample is 3 - 2/1. -/
theorem C4_witness :
    (0 : ℕ) < 1 ∧
    (∃ chan1 samples1,
      (pedSubtract [[[3]]] [[2]] 1)[0]? = some chan1 ∧
      chan1[0]? = some samples1 ∧
      samples1[0]? = some ((3 : ℚ) - 2 / ((1 : ℕ) : ℚ))) :=
  ⟨by decide,
    C4_pedestal_broadcast [[[3]]] [[2]] 1 0 0 0 [[3]] [2] [3] 2 3 (by decide)
      rfl rfl rfl rfl rfl⟩

/-- C5 witness: a constant integrator returning charge [[2]] and pulse time
[[7]] on the fixture event with dc_to_pe [[3]]. -/
theorem C5_witness :
    ((fun _ => (([[2]] : List (List ℚ)), ([[7]] : List (List ℚ))))
        (pedSubtract ((evC5.r0 1).waveform) ((evC5.mc 1).pedestal)
          (shape2 ((evC5.r0 1).waveform))) =
      (([[2]] : List (List ℚ)), ([[7]] : List (List ℚ)))) ∧
    (((lst_calibration (fun _ => ([[2]], [[7]])) evC5 1).dl1 1).image =
      PyArray.a2 (mul2 [[2]] ((evC5.mc 1).dc_to_pe)) ∧
    ((lst_calibration (fun _ => ([[2]], [[7]])) evC5 1).dl1 1).pulse_time =
      PyArray.a2 [[7]] ∧
    ∀ (g p : ℕ) (rowi rowd : List ℚ) (x y : ℚ),
      ([[2]] : List (List ℚ))[g]? = some rowi →
      ((evC5.mc 1).dc_to_pe)[g]? = some rowd →
      rowi[p]? = some x → rowd[p]? = some y →
      ∃ row1,
        (mul2 [[2]] ((evC5.mc 1).dc_to_pe))[g]? = some row1 ∧
        row1[p]? = some (x * y)) :=
  ⟨rfl, C5_charge_scaling_and_store (fun _ => ([[2]], [[7]])) evC5 1
    [[2]] [[7]] rfl⟩

/-- C6 witness: combining the fixture event's channels succeeds, writes the
combined one-pixel arrays, and leaves the mc part untouched. -/
theorem C6_witness :
    ((evC6.dl1 1).image = PyArray.a2 [[10], [5]]) ∧
    ((evC6.dl1 1).pulse_time = PyArray.a2 [[2], [3]]) ∧
    (gain_selection (fun _ _ => [[true]]) ⟨[], [[10], [5]], [[2], [3]]⟩
        ((evC6.r0 1).waveform) ((evC6.inst 1).camera.cam_id) 4000 =
      (⟨[(("LSTCam" : String), (4000 : ℚ))], [[10], [5]], [[2], [3]]⟩,
        Except.ok ([5], [3]))) ∧
    (combine_channels (fun _ _ => [[true]]) [] evC6 1 4000).2.2 =
      Except.ok () ∧
    ((combine_channels (fun _ _ => [[true]]) [] evC6 1 4000).2.1.dl1 1).image =
      PyArray.a1 [5] ∧
    (combine_channels (fun _ _ => [[true]]) [] evC6 1 4000).2.1.mc =
      evC6.mc :=
  ⟨rfl, rfl, rfl,
   (C6_combine_channels_frame (fun _ _ => [[true]]) [] evC6 1 4000
      [[10], [5]] [[2], [3]]
      ⟨[(("LSTCam" : String), (4000 : ℚ))], [[10], [5]], [[2], [3]]⟩
      [5] [3] rfl rfl rfl).1,
   (C6_combine_channels_frame (fun _ _ => [[true]]) [] evC6 1 4000
      [[10], [5]] [[2], [3]]
      ⟨[(("LSTCam" : String), (4000 : ℚ))], [[10], [5]], [[2], [3]]⟩
      [5] [3] rfl rfl rfl).2.2.2.2.2.2.1,
   (C6_combine_channels_frame (fun _ _ => [[true]]) [] evC6 1 4000
      [[10], [5]] [[2], [3]]
      ⟨[(("LSTCam" : String), (4000 : ℚ))], [[10], [5]], [[2], [3]]⟩
      [5] [3] rfl rfl rfl).2.2.2.1⟩

end LstCalib
